import Mathlib

/-!
Verification of the meshcore-proxying bridge against its specification.

The definitions below are shallow embeddings of the JavaScript source:
* `server/frame-parser.js` — the companion-protocol frame codec
  (`FrameParser.feed`, `FrameParser.buildFrame`);
* `index.js` — the command queue, dispatcher and reset logic
  (`drainQueue`, `resolveCurrentCommand`, `resetCommandTimeout`,
  `resetState`, `handleIncomingFrame`, `bufferPushNotification`,
  the WebSocket / TCP client handlers);
* `server/weather.js` — `degreesToCompass` and `formatWeatherMessage`.

Bytes are modelled as `Nat` (JavaScript `Buffer` elements are `0..255`;
the theorems quantify over arbitrary `Nat` lists, a superset).
JavaScript numbers in the weather path are modelled as `ℚ`; `Math.round`
becomes `⌊q + 1/2⌋`, which agrees with its round-half-up semantics.
-/

set_option maxHeartbeats 1000000

namespace MeshCore

/-- Direction byte of device-to-host frames (`FRAME_INCOMING = 0x3e` in
`frame-parser.js`). -/
def FRAME_INCOMING : Nat := 0x3e

/-- Direction byte of host-to-device frames (`FRAME_OUTGOING = 0x3c`). -/
def FRAME_OUTGOING : Nat := 0x3c

/-- Header length (`FRAME_HEADER_LEN = 3`). -/
def FRAME_HEADER_LEN : Nat := 3

/-- A parsed frame, as returned by `FrameParser.feed`. -/
structure Frame where
  type : Nat
  payload : List Nat
deriving DecidableEq, Repr

/-- Fuel-indexed version of the `while` loop inside `FrameParser.feed`.
Each iteration inspects the head of the accumulator: an invalid direction
byte is dropped, a zero length field drops the direction byte, an
incomplete payload stops the loop, and otherwise one frame is detached.
One unit of fuel is spent per iteration; since every iteration either
stops or shortens the buffer, `buf.length` fuel always suffices. -/
def parseLoopF : Nat → List Nat → List Frame × List Nat
  | 0, buf => ([], buf)
  | fuel + 1, b0 :: b1 :: b2 :: rest =>
    if b0 = FRAME_INCOMING ∨ b0 = FRAME_OUTGOING then
      if Nat.lor b1 (b2 <<< 8) = 0 then
        parseLoopF fuel (b1 :: b2 :: rest)
      else if rest.length < Nat.lor b1 (b2 <<< 8) then
        ([], b0 :: b1 :: b2 :: rest)
      else
        let r := parseLoopF fuel (rest.drop (Nat.lor b1 (b2 <<< 8)))
        (⟨b0, rest.take (Nat.lor b1 (b2 <<< 8))⟩ :: r.1, r.2)
    else
      parseLoopF fuel (b1 :: b2 :: rest)
  | _ + 1, buf => ([], buf)

/-- The parsing loop of `FrameParser.feed`, run to completion on a buffer. -/
def parseLoop (buf : List Nat) : List Frame × List Nat :=
  parseLoopF buf.length buf

/-- `FrameParser.feed(data)`: append `data` to the accumulator, run the
parsing loop, return the emitted frames; the second component is the
accumulator left for the next call (`this.buffer`). -/
def feed (buffer data : List Nat) : List Frame × List Nat :=
  parseLoop (buffer ++ data)

/-- `FrameParser.buildFrame(frameType, payload)`: direction byte, 16-bit
little-endian length (`len & 0xff`, `(len >> 8) & 0xff`), then payload. -/
def buildFrame (frameType : Nat) (payload : List Nat) : List Nat :=
  frameType :: (payload.length &&& 0xff) :: ((payload.length >>> 8) &&& 0xff) :: payload

theorem parseLoopF_congr :
    ∀ (f1 f2 : Nat) (buf : List Nat), buf.length ≤ f1 → buf.length ≤ f2 →
      parseLoopF f1 buf = parseLoopF f2 buf := by
  intro f1
  induction f1 with
  | zero =>
    intro f2 buf h1 _
    have hb : buf = [] := List.eq_nil_of_length_eq_zero (Nat.le_zero.mp h1)
    subst hb
    cases f2 <;> rfl
  | succ f ih =>
    intro f2 buf h1 h2
    match buf with
    | [] => cases f2 <;> rfl
    | [a] =>
      match f2 with
      | f2' + 1 => rfl
    | [a, b] =>
      match f2 with
      | f2' + 1 => rfl
    | b0 :: b1 :: b2 :: rest =>
      match f2 with
      | f2' + 1 =>
        simp only [List.length_cons] at h1 h2
        simp only [parseLoopF]
        have hTail : (b1 :: b2 :: rest).length ≤ f := by simp; omega
        have hTail2 : (b1 :: b2 :: rest).length ≤ f2' := by simp; omega
        by_cases hdir : b0 = FRAME_INCOMING ∨ b0 = FRAME_OUTGOING
        · simp only [hdir, if_true]
          by_cases hzero : Nat.lor b1 (b2 <<< 8) = 0
          · simp only [hzero, if_true]
            exact ih f2' _ hTail hTail2
          · simp only [hzero, if_false]
            by_cases hshort : rest.length < Nat.lor b1 (b2 <<< 8)
            · simp [hshort]
            · simp only [hshort, if_false]
              have hDrop : (rest.drop (Nat.lor b1 (b2 <<< 8))).length ≤ f := by
                simp [List.length_drop]; omega
              have hDrop2 : (rest.drop (Nat.lor b1 (b2 <<< 8))).length ≤ f2' := by
                simp [List.length_drop]; omega
              rw [ih f2' _ hDrop hDrop2]
        · simp only [hdir, if_false]
          exact ih f2' _ hTail hTail2

theorem parseLoop_short (buf : List Nat) (h : buf.length < 3) :
    parseLoop buf = ([], buf) := by
  match buf with
  | [] => rfl
  | [a] => rfl
  | [a, b] => rfl
  | a :: b :: c :: r => simp at h; omega

/-- One-step unfolding of the parsing loop on a buffer holding at least a
full header. -/
theorem parseLoop_cons (b0 b1 b2 : Nat) (rest : List Nat) :
    parseLoop (b0 :: b1 :: b2 :: rest) =
      if b0 = FRAME_INCOMING ∨ b0 = FRAME_OUTGOING then
        if Nat.lor b1 (b2 <<< 8) = 0 then
          parseLoop (b1 :: b2 :: rest)
        else if rest.length < Nat.lor b1 (b2 <<< 8) then
          ([], b0 :: b1 :: b2 :: rest)
        else
          ((⟨b0, rest.take (Nat.lor b1 (b2 <<< 8))⟩ : Frame) ::
              (parseLoop (rest.drop (Nat.lor b1 (b2 <<< 8)))).1,
            (parseLoop (rest.drop (Nat.lor b1 (b2 <<< 8)))).2)
      else
        parseLoop (b1 :: b2 :: rest) := by
  show parseLoopF (b0 :: b1 :: b2 :: rest).length _ = _
  simp only [List.length_cons, parseLoopF]
  have hTail : parseLoopF (rest.length + 1 + 1) (b1 :: b2 :: rest) =
      parseLoop (b1 :: b2 :: rest) := by
    apply parseLoopF_congr <;> simp
  by_cases hdir : b0 = FRAME_INCOMING ∨ b0 = FRAME_OUTGOING
  · simp only [hdir, if_true]
    by_cases hzero : Nat.lor b1 (b2 <<< 8) = 0
    · simp [hzero, hTail]
    · simp only [hzero, if_false]
      by_cases hshort : rest.length < Nat.lor b1 (b2 <<< 8)
      · simp [hshort]
      · have hDrop : parseLoopF (rest.length + 1 + 1) (rest.drop (Nat.lor b1 (b2 <<< 8))) =
            parseLoop (rest.drop (Nat.lor b1 (b2 <<< 8))) := by
          apply parseLoopF_congr
          · simp [List.length_drop]; omega
          · exact Nat.le_refl _
        simp [hshort, hDrop]
  · simp [hdir, hTail]

/-- Feeding `a ++ s` in one block parses exactly the frames of `a` followed
by the frames obtained from the leftover of `a` extended with `s`. -/
theorem parseLoop_append (a s : List Nat) :
    parseLoop (a ++ s) =
      ((parseLoop a).1 ++ (parseLoop ((parseLoop a).2 ++ s)).1,
        (parseLoop ((parseLoop a).2 ++ s)).2) := by
  generalize hn : a.length = n
  induction n using Nat.strong_induction_on generalizing a with
  | _ n ih =>
  match a with
  | [] =>
    simp [parseLoop_short]
  | [x] =>
    rw [parseLoop_short [x] (by simp)]
    simp
  | [x, y] =>
    rw [parseLoop_short [x, y] (by simp)]
    simp
  | b0 :: b1 :: b2 :: rest =>
    simp only [List.length_cons] at hn
    have ihTail := ih (b1 :: b2 :: rest).length (by simp; omega) (b1 :: b2 :: rest) rfl
    by_cases hdir : b0 = FRAME_INCOMING ∨ b0 = FRAME_OUTGOING
    · by_cases hzero : Nat.lor b1 (b2 <<< 8) = 0
      · have hRa : parseLoop (b0 :: b1 :: b2 :: rest) = parseLoop (b1 :: b2 :: rest) := by
          rw [parseLoop_cons]; simp [hdir, hzero]
        have hLa : parseLoop ((b0 :: b1 :: b2 :: rest) ++ s) =
            parseLoop ((b1 :: b2 :: rest) ++ s) := by
          show parseLoop (b0 :: b1 :: b2 :: (rest ++ s)) = _
          rw [parseLoop_cons]; simp [hdir, hzero]
        rw [hLa, hRa]
        exact ihTail
      · by_cases hshort : rest.length < Nat.lor b1 (b2 <<< 8)
        · have hRa : parseLoop (b0 :: b1 :: b2 :: rest) = ([], b0 :: b1 :: b2 :: rest) := by
            rw [parseLoop_cons]; simp [hdir, hzero, hshort]
          rw [hRa]
          simp
        · have hRa : parseLoop (b0 :: b1 :: b2 :: rest) =
              ((⟨b0, rest.take (Nat.lor b1 (b2 <<< 8))⟩ : Frame) ::
                  (parseLoop (rest.drop (Nat.lor b1 (b2 <<< 8)))).1,
                (parseLoop (rest.drop (Nat.lor b1 (b2 <<< 8)))).2) := by
            rw [parseLoop_cons]; simp [hdir, hzero, hshort]
          have hle2 : ¬ (rest ++ s).length < Nat.lor b1 (b2 <<< 8) := by
            simp [List.length_append]; omega
          have hsub : Nat.lor b1 (b2 <<< 8) - rest.length = 0 := by omega
          have htake : (rest ++ s).take (Nat.lor b1 (b2 <<< 8)) =
              rest.take (Nat.lor b1 (b2 <<< 8)) := by
            rw [List.take_append_eq_append_take, hsub]
            simp
          have hdrop : (rest ++ s).drop (Nat.lor b1 (b2 <<< 8)) =
              rest.drop (Nat.lor b1 (b2 <<< 8)) ++ s := by
            rw [List.drop_append_eq_append_drop, hsub]
            simp
          have hLa : parseLoop ((b0 :: b1 :: b2 :: rest) ++ s) =
              ((⟨b0, rest.take (Nat.lor b1 (b2 <<< 8))⟩ : Frame) ::
                  (parseLoop (rest.drop (Nat.lor b1 (b2 <<< 8)) ++ s)).1,
                (parseLoop (rest.drop (Nat.lor b1 (b2 <<< 8)) ++ s)).2) := by
            show parseLoop (b0 :: b1 :: b2 :: (rest ++ s)) = _
            rw [parseLoop_cons]
            simp only [hdir, if_true, hzero, if_false, hle2, htake, hdrop]
          have ihDrop := ih (rest.drop (Nat.lor b1 (b2 <<< 8))).length
            (by simp [List.length_drop]; omega) (rest.drop (Nat.lor b1 (b2 <<< 8))) rfl
          rw [hLa, hRa, ihDrop]
          simp
    · have hRa : parseLoop (b0 :: b1 :: b2 :: rest) = parseLoop (b1 :: b2 :: rest) := by
        rw [parseLoop_cons]; simp [hdir]
      have hLa : parseLoop ((b0 :: b1 :: b2 :: rest) ++ s) =
          parseLoop ((b1 :: b2 :: rest) ++ s) := by
        show parseLoop (b0 :: b1 :: b2 :: (rest ++ s)) = _
        rw [parseLoop_cons]; simp [hdir]
      rw [hLa, hRa]
      exact ihTail

/-- Feed a parser a list of chunks in sequence, starting from accumulator
`st`; returns all frames emitted, in order, and the final accumulator.
Models repeated calls to `FrameParser.feed` on one instance. -/
def feedMany (st : List Nat) (chunks : List (List Nat)) : List Frame × List Nat :=
  chunks.foldl (fun acc chunk =>
    ((acc.1 ++ (parseLoop (acc.2 ++ chunk)).1, (parseLoop (acc.2 ++ chunk)).2)))
    ([], st)

theorem feedMany_frames_acc (chunks : List (List Nat)) (fs : List Frame) (b : List Nat) :
    chunks.foldl (fun acc chunk =>
        ((acc.1 ++ (parseLoop (acc.2 ++ chunk)).1, (parseLoop (acc.2 ++ chunk)).2)))
      (fs, b) =
    (fs ++ (feedMany b chunks).1, (feedMany b chunks).2) := by
  induction chunks generalizing fs b with
  | nil => simp [feedMany]
  | cons c cs ih =>
    simp only [feedMany, List.foldl_cons, List.nil_append]
    rw [ih, ih]
    simp [List.append_assoc]

theorem feedMany_eq_parseLoop (chunks : List (List Nat)) :
    ∀ a : List Nat,
      ((parseLoop a).1 ++ (feedMany (parseLoop a).2 chunks).1,
        (feedMany (parseLoop a).2 chunks).2) = parseLoop (a ++ chunks.flatten) := by
  induction chunks with
  | nil =>
    intro a
    simp [feedMany]
  | cons c cs ih =>
    intro a
    have hstep := parseLoop_append a c
    have hfold : feedMany (parseLoop a).2 (c :: cs) =
        ((parseLoop ((parseLoop a).2 ++ c)).1 ++
            (feedMany (parseLoop ((parseLoop a).2 ++ c)).2 cs).1,
          (feedMany (parseLoop ((parseLoop a).2 ++ c)).2 cs).2) := by
      simp only [feedMany, List.foldl_cons, List.nil_append]
      exact feedMany_frames_acc cs _ _
    have hmid1 : (parseLoop (a ++ c)).1 = (parseLoop a).1 ++ (parseLoop ((parseLoop a).2 ++ c)).1 := by
      rw [hstep]
    have hmid2 : (parseLoop ((parseLoop a).2 ++ c)).2 = (parseLoop (a ++ c)).2 := by
      rw [hstep]
    have hflat : a ++ (c :: cs).flatten = (a ++ c) ++ cs.flatten := by
      simp [List.append_assoc]
    rw [hflat, ← ih (a ++ c), hfold, hmid2, hmid1, List.append_assoc]

/-- Reassembling a 16-bit little-endian length field: the parser's
`lenLo | (lenHi << 8)` recovers the length that `buildFrame` split into
`len & 0xff` and `(len >> 8) & 0xff`, for any length below `2^16`. -/
theorem length_field_round_trip (L : Nat) (h : L < 65536) :
    Nat.lor (L &&& 0xff) (((L >>> 8) &&& 0xff) <<< 8) = L := by
  have h255 : (0xff : Nat) = 2 ^ 8 - 1 := by norm_num
  show (L &&& 0xff) ||| (((L >>> 8) &&& 0xff) <<< 8) = L
  apply Nat.eq_of_testBit_eq
  intro i
  rw [h255]
  simp only [Nat.testBit_or, Nat.testBit_and, Nat.testBit_shiftLeft, Nat.testBit_shiftRight,
    Nat.testBit_two_pow_sub_one]
  by_cases h8 : i < 8
  · have h8n : ¬ 8 ≤ i := by omega
    simp [h8, h8n]
  · by_cases h16 : i < 16
    · have h8y : 8 ≤ i := by omega
      have hii : 8 + (i - 8) = i := by omega
      have hi8 : i - 8 < 8 := by omega
      simp [h8, h8y, hii, hi8]
    · have hbit : L.testBit i = false := by
        apply Nat.testBit_lt_two_pow
        calc L < 65536 := h
          _ = 2 ^ 16 := by norm_num
          _ ≤ 2 ^ i := Nat.pow_le_pow_right (by norm_num) (by omega)
      have hi8 : ¬ i - 8 < 8 := by omega
      simp [h8, hbit, hi8]

/-- C2 (counterexample): the round-trip claim fails for the empty payload.
`buildFrame(0x3C, [])` is the three bytes `3C 00 00`; the decoder treats the
zero length field as a framing artefact, drops the direction byte, and emits
no frame at all, instead of the claimed single frame `{direction, []}`. -/
theorem C2_counterexample :
    feed [] (buildFrame FRAME_OUTGOING []) = ([], [0, 0]) := by decide

/-- C2 (amended): for a direction byte in `{0x3C, 0x3E}` and any nonempty
payload of length below `2^16`, feeding the frame built by
`FrameParser.buildFrame` to a fresh `FrameParser` yields exactly the one
frame `{direction, payload}` and leaves an empty accumulator. -/
theorem C2_round_trip (d : Nat) (p : List Nat)
    (hd : d = FRAME_INCOMING ∨ d = FRAME_OUTGOING)
    (hne : p ≠ []) (hlen : p.length < 65536) :
    feed [] (buildFrame d p) = ([⟨d, p⟩], []) := by
  show parseLoop ([] ++ buildFrame d p) = _
  rw [List.nil_append]
  show parseLoop (d :: (p.length &&& 0xff) :: ((p.length >>> 8) &&& 0xff) :: p) = _
  rw [parseLoop_cons, length_field_round_trip p.length hlen]
  have hL0 : p.length ≠ 0 := by simpa using hne
  have hnlt : ¬ p.length < p.length := Nat.lt_irrefl _
  have hnil : parseLoop ([] : List Nat) = ([], []) := rfl
  simp [hd, hL0, hnlt, List.take_length, List.drop_length, hnil]

/-- C2 (witness). -/
theorem C2_round_trip_witness :
    feed [] (buildFrame FRAME_OUTGOING [1, 2, 3]) = ([⟨FRAME_OUTGOING, [1, 2, 3]⟩], []) :=
  C2_round_trip FRAME_OUTGOING [1, 2, 3] (Or.inr rfl) (by decide) (by decide)

/-- C3: the codec is incremental. Feeding `a` then `b` to one `FrameParser`
instance yields, concatenated, the same frames as feeding `a ++ b` to a
fresh instance, with the same final accumulator; consequently feeding a
stream one byte at a time produces the same frame stream as feeding it as
a single block. -/
theorem C3_incremental_parse :
    (∀ a b : List Nat,
        feed [] (a ++ b) =
          ((feed [] a).1 ++ (feed (feed [] a).2 b).1, (feed (feed [] a).2 b).2)) ∧
    (∀ bytes : List Nat,
        feedMany [] (bytes.map fun x => [x]) = parseLoop bytes) := by
  constructor
  · intro a b
    show parseLoop ([] ++ (a ++ b)) = _
    simp only [feed, List.nil_append]
    exact parseLoop_append a b
  · intro bytes
    have hflat : ∀ l : List Nat, (l.map fun x => [x]).flatten = l := by
      intro l; induction l with
      | nil => rfl
      | cons x xs ih => simp [ih]
    have h := feedMany_eq_parseLoop (bytes.map fun x => [x]) []
    have hnil : parseLoop ([] : List Nat) = ([], []) := rfl
    rw [hnil, List.nil_append, hflat bytes] at h
    simpa using h

/-- C4: resync behaviour of the decoder. With a full header buffered,
a head byte that is neither `0x3C` nor `0x3E` is dropped and parsing
retries; a valid direction byte with a zero length field is likewise
dropped; and the concrete noisy input `00 3E 03 00 05 AA BB` decodes to
exactly the single frame `{direction = 0x3E, payload = [05, AA, BB]}`.
The decoder is a total function, so no input can raise an error. -/
theorem C4_resync :
    (∀ b0 b1 b2 : Nat, ∀ rest : List Nat,
        ¬(b0 = FRAME_INCOMING ∨ b0 = FRAME_OUTGOING) →
          parseLoop (b0 :: b1 :: b2 :: rest) = parseLoop (b1 :: b2 :: rest)) ∧
    (∀ b0 b1 b2 : Nat, ∀ rest : List Nat,
        (b0 = FRAME_INCOMING ∨ b0 = FRAME_OUTGOING) → Nat.lor b1 (b2 <<< 8) = 0 →
          parseLoop (b0 :: b1 :: b2 :: rest) = parseLoop (b1 :: b2 :: rest)) ∧
    feed [] [0x00, 0x3E, 0x03, 0x00, 0x05, 0xAA, 0xBB] =
      ([⟨0x3E, [0x05, 0xAA, 0xBB]⟩], []) := by
  refine ⟨?_, ?_, ?_⟩
  · intro b0 b1 b2 rest h
    rw [parseLoop_cons]
    simp [h]
  · intro b0 b1 b2 rest h hz
    rw [parseLoop_cons]
    simp [h, hz]
  · decide

/-- C4 (witness): the first resync rule applied to the concrete buffer
`[0x00, 0x3E, 0x03]`. -/
theorem C4_resync_witness :
    parseLoop [0x00, 0x3E, 0x03] = parseLoop [0x3E, 0x03] :=
  C4_resync.1 0x00 0x3E 0x03 [] (by decide)

/-- Result of the JavaScript expression `COMPASS[idx]` combined with the
early `return deg`: a compass direction from the table, the input string
passed through (`NaN` case), or `undefined` (out-of-bounds array access). -/
inductive CompassResult where
  | dir (s : String)
  | passthrough (s : String)
  | undefined
deriving DecidableEq, Repr

/-- Numeric value of a decimal digit character, `none` otherwise. -/
def digitVal (c : Char) : Option Nat :=
  if '0' ≤ c ∧ c ≤ '9' then some (c.toNat - 48) else none

/-- Longest prefix of decimal digits, with the unconsumed remainder. -/
def takeDigits : List Char → List Nat × List Char
  | [] => ([], [])
  | c :: cs =>
    match digitVal c with
    | some d =>
      let r := takeDigits cs
      (d :: r.1, r.2)
    | none => ([], c :: cs)

/-- Value of a big-endian digit list. -/
def natOfDigits (ds : List Nat) : Nat :=
  ds.foldl (fun a d => 10 * a + d) 0

/-- Model of JavaScript `parseFloat` restricted to plain decimal literals:
optional sign, integer digits, optional `.` and fraction digits, longest
valid prefix. A string with no leading digits parses to `none` (`NaN`).
Exponents and special forms are not modelled; no string handled by the
weather path uses them. -/
def parseFloatQ (s : String) : Option ℚ :=
  let signed : Bool × List Char :=
    match s.toList with
    | '-' :: t => (true, t)
    | '+' :: t => (false, t)
    | t => (false, t)
  let ipart := takeDigits signed.2
  let fpart : List Nat :=
    match ipart.2 with
    | '.' :: t => (takeDigits t).1
    | _ => []
  if ipart.1.isEmpty ∧ fpart.isEmpty then none
  else
    let mag : ℚ := (natOfDigits ipart.1 : ℚ) + (natOfDigits fpart : ℚ) / ((10 : ℚ) ^ fpart.length)
    some (if signed.1 then -mag else mag)

/-- `Math.round`: round half toward positive infinity. -/
def jsRound (q : ℚ) : ℤ := ⌊q + 1 / 2⌋

/-- The 16-entry compass table of `weather.js`. -/
def COMPASS : List String :=
  ["N", "NNE", "NE", "ENE", "E", "ESE", "SE", "SSE",
   "S", "SSW", "SW", "WSW", "W", "WNW", "NW", "NNW"]

/-- `degreesToCompass(deg)`: parse as a float (pass the string through on
`NaN`), compute `Math.round(num / 22.5) % 16` with JavaScript's truncating
remainder (`Int.tmod`), and index into `COMPASS`; a negative index is an
out-of-bounds array access and yields `undefined`. -/
def degreesToCompass (deg : String) : CompassResult :=
  match parseFloatQ deg with
  | none => .passthrough deg
  | some num =>
    let idx : ℤ := Int.tmod (jsRound (num / (45 / 2 : ℚ))) 16
    if 0 ≤ idx then
      match COMPASS.get? idx.toNat with
      | some d => .dir d
      | none => .undefined
    else .undefined

/-- One Home Assistant reading: `{ state, unit }`. -/
structure Reading where
  state : String
  unit : String
deriving DecidableEq, Repr

/-- The readings map passed to `formatWeatherMessage`, one optional entry
per logical sensor key. -/
structure Readings where
  temperature : Option Reading := none
  humidity : Option Reading := none
  wind_speed : Option Reading := none
  wind_gust : Option Reading := none
  wind_bearing : Option Reading := none
  pressure : Option Reading := none
  uv : Option Reading := none
  rain_rate : Option Reading := none
  rain_daily : Option Reading := none
  solar_radiation : Option Reading := none
  dew_point : Option Reading := none
deriving DecidableEq, Repr

/-- JavaScript string coercion of the `degreesToCompass` result as it is
concatenated by `wind += degreesToCompass(bearing.state)`: the
out-of-bounds value `undefined` renders as the string `"undefined"`. -/
def CompassResult.asJsString : CompassResult → String
  | .dir s => s
  | .passthrough s => s
  | .undefined => "undefined"

/-- The JavaScript statement pattern `if (x) parts.push(f(x))`: the pushed
element when the reading is present, nothing otherwise. -/
def optPart (o : Option Reading) (f : Reading → String) : List String :=
  match o with
  | some v => [f v]
  | none => []

/-- The JavaScript statement pattern `if (x) wind += f(x)` inside the wind
field: the appended text when the reading is present, `""` otherwise. -/
def optStr (o : Option Reading) (f : Reading → String) : String :=
  match o with
  | some v => f v
  | none => ""

theorem optPart_eq (o : Option Reading) (f : Reading → String) :
    optPart o f = (o.map f).toList := by
  cases o <;> rfl

theorem optStr_eq (o : Option Reading) (f : Reading → String) :
    optStr o f = (o.map f).getD "" := by
  cases o <;> rfl

/-- `formatWeatherMessage(readings)`: build the `parts` array by pushing
one formatted field per present reading, in source order, then return
`WX: parts.join(' ')`, or `null` when no part was pushed. -/
def formatWeatherMessage (readings : Readings) : Option String :=
  let parts : List String := []
  let parts := parts ++ optPart readings.temperature (fun t => t.state ++ t.unit)
  let parts := parts ++ optPart readings.humidity (fun h => h.state ++ h.unit)
  let parts := parts ++ optPart readings.wind_speed (fun sp =>
    ((optStr readings.wind_bearing (fun b => (degreesToCompass b.state).asJsString)
        ++ sp.state)
      ++ optStr readings.wind_gust (fun g => "G" ++ g.state))
      ++ sp.unit)
  let parts := parts ++ optPart readings.pressure (fun pr => pr.state ++ pr.unit)
  let parts := parts ++ optPart readings.uv (fun u => "UV" ++ u.state)
  let parts := parts ++ optPart readings.rain_rate (fun r => r.state ++ r.unit)
  let parts := parts ++ optPart readings.rain_daily (fun r => r.state ++ r.unit)
  let parts := parts ++ optPart readings.solar_radiation (fun r => r.state ++ r.unit)
  let parts := parts ++ optPart readings.dew_point (fun d => "DP" ++ d.state ++ d.unit)
  if parts.isEmpty then none else some ("WX: " ++ String.intercalate " " parts)

/-- The ordered field list described by the spec's field table (§4.9),
written independently of the imperative `parts.push` sequence: one
formatted entry per present reading, wind only when a speed is present. -/
def specWeatherFields (readings : Readings) : List String :=
  (readings.temperature.map fun t => t.state ++ t.unit).toList ++
  (readings.humidity.map fun h => h.state ++ h.unit).toList ++
  (match readings.wind_speed with
    | some sp =>
      [((readings.wind_bearing.map fun b => (degreesToCompass b.state).asJsString).getD "")
        ++ sp.state
        ++ ((readings.wind_gust.map fun g => "G" ++ g.state).getD "")
        ++ sp.unit]
    | none => []) ++
  (readings.pressure.map fun pr => pr.state ++ pr.unit).toList ++
  (readings.uv.map fun u => "UV" ++ u.state).toList ++
  (readings.rain_rate.map fun r => r.state ++ r.unit).toList ++
  (readings.rain_daily.map fun r => r.state ++ r.unit).toList ++
  (readings.solar_radiation.map fun r => r.state ++ r.unit).toList ++
  (readings.dew_point.map fun d => "DP" ++ d.state ++ d.unit).toList

/-- The readings of the spec's concrete weather scenario. -/
def scenarioReadings : Readings where
  temperature := some ⟨"72.3", "°F"⟩
  humidity := some ⟨"45", "%"⟩
  wind_speed := some ⟨"12", "mph"⟩
  wind_gust := some ⟨"18", "mph"⟩
  wind_bearing := some ⟨"315", "°"⟩
  pressure := some ⟨"30.12", "inHg"⟩
  uv := some ⟨"4", ""⟩
  rain_rate := some ⟨"0.02", "in/h"⟩
  rain_daily := some ⟨"0.45", "in"⟩

/-- For a bearing that parses to a non-negative value the compass lookup is
in bounds, and the result is the table entry at index
`Math.round(q / 22.5) mod 16`, where here the mathematical modulus agrees
with JavaScript's truncating remainder. -/
theorem degreesToCompass_nonneg (s : String) (q : ℚ)
    (hp : parseFloatQ s = some q) (hq : 0 ≤ q) :
    degreesToCompass s =
      .dir (COMPASS.getD ((jsRound (q / (45 / 2 : ℚ)) % 16).toNat) "") := by
  have hr : 0 ≤ jsRound (q / (45 / 2 : ℚ)) := by
    apply Int.floor_nonneg.2
    have hdiv : 0 ≤ q / (45 / 2 : ℚ) := by positivity
    linarith
  have htm : Int.tmod (jsRound (q / (45 / 2 : ℚ))) 16 = jsRound (q / (45 / 2 : ℚ)) % 16 :=
    Int.tmod_eq_emod hr (by norm_num)
  have h0 : 0 ≤ jsRound (q / (45 / 2 : ℚ)) % 16 := Int.emod_nonneg _ (by norm_num)
  have h16 : jsRound (q / (45 / 2 : ℚ)) % 16 < 16 := Int.emod_lt_of_pos _ (by norm_num)
  have hlt : (jsRound (q / (45 / 2 : ℚ)) % 16).toNat < COMPASS.length := by
    simp only [COMPASS, List.length_cons, List.length_nil]
    omega
  simp only [degreesToCompass, hp, htm, if_pos h0]
  simp [List.get?_eq_getElem?, List.getElem?_eq_getElem hlt, List.getD_eq_getElem?_getD]

/-- Evaluation helper: once the parsed value and the rounded quotient of a
bearing are known, `degreesToCompass` reduces to a table lookup. -/
theorem degreesToCompass_eval (s : String) (q : ℚ) (n : ℤ)
    (hp : parseFloatQ s = some q) (hn : jsRound (q / (45 / 2 : ℚ)) = n) :
    degreesToCompass s =
      if 0 ≤ Int.tmod n 16 then
        match COMPASS.get? (Int.tmod n 16).toNat with
        | some d => CompassResult.dir d
        | none => CompassResult.undefined
      else CompassResult.undefined := by
  simp only [degreesToCompass, hp, hn]

theorem parseFloatQ_337_5 : parseFloatQ "337.5" = some (675 / 2) := by
  have h : parseFloatQ "337.5" =
      some ((natOfDigits [3, 3, 7] : ℚ) + (natOfDigits [5] : ℚ) / 10 ^ (1 : Nat)) := rfl
  rw [h]
  norm_num [natOfDigits]

theorem parseFloatQ_0 : parseFloatQ "0" = some 0 := by
  have h : parseFloatQ "0" =
      some ((natOfDigits [0] : ℚ) + (natOfDigits ([] : List Nat) : ℚ) / 10 ^ (0 : Nat)) := rfl
  rw [h]
  norm_num [natOfDigits]

theorem parseFloatQ_22 : parseFloatQ "22" = some 22 := by
  have h : parseFloatQ "22" =
      some ((natOfDigits [2, 2] : ℚ) + (natOfDigits ([] : List Nat) : ℚ) / 10 ^ (0 : Nat)) := rfl
  rw [h]
  norm_num [natOfDigits]

theorem parseFloatQ_348 : parseFloatQ "348" = some 348 := by
  have h : parseFloatQ "348" =
      some ((natOfDigits [3, 4, 8] : ℚ) + (natOfDigits ([] : List Nat) : ℚ) / 10 ^ (0 : Nat)) := rfl
  rw [h]
  norm_num [natOfDigits]

theorem parseFloatQ_315 : parseFloatQ "315" = some 315 := by
  have h : parseFloatQ "315" =
      some ((natOfDigits [3, 1, 5] : ℚ) + (natOfDigits ([] : List Nat) : ℚ) / 10 ^ (0 : Nat)) := rfl
  rw [h]
  norm_num [natOfDigits]

theorem parseFloatQ_30 : parseFloatQ "30" = some 30 := by
  have h : parseFloatQ "30" =
      some ((natOfDigits [3, 0] : ℚ) + (natOfDigits ([] : List Nat) : ℚ) / 10 ^ (0 : Nat)) := rfl
  rw [h]
  norm_num [natOfDigits]

theorem parseFloatQ_neg5 : parseFloatQ "-5" = some (-5) := by
  have h : parseFloatQ "-5" =
      some (-((natOfDigits [5] : ℚ) + (natOfDigits ([] : List Nat) : ℚ) / 10 ^ (0 : Nat))) := rfl
  rw [h]
  norm_num [natOfDigits]

theorem parseFloatQ_neg30 : parseFloatQ "-30" = some (-30) := by
  have h : parseFloatQ "-30" =
      some (-((natOfDigits [3, 0] : ℚ) + (natOfDigits ([] : List Nat) : ℚ) / 10 ^ (0 : Nat))) := rfl
  rw [h]
  norm_num [natOfDigits]

theorem compass_eval_337_5 : degreesToCompass "337.5" = CompassResult.dir "NNW" := by
  rw [degreesToCompass_eval "337.5" (675 / 2) 15 parseFloatQ_337_5
    (by unfold jsRound; rw [Int.floor_eq_iff]; norm_num)]
  decide

theorem compass_eval_0 : degreesToCompass "0" = CompassResult.dir "N" := by
  rw [degreesToCompass_eval "0" 0 0 parseFloatQ_0
    (by unfold jsRound; rw [Int.floor_eq_iff]; norm_num)]
  decide

theorem compass_eval_22 : degreesToCompass "22" = CompassResult.dir "NNE" := by
  rw [degreesToCompass_eval "22" 22 1 parseFloatQ_22
    (by unfold jsRound; rw [Int.floor_eq_iff]; norm_num)]
  decide

theorem compass_eval_348 : degreesToCompass "348" = CompassResult.dir "NNW" := by
  rw [degreesToCompass_eval "348" 348 15 parseFloatQ_348
    (by unfold jsRound; rw [Int.floor_eq_iff]; norm_num)]
  decide

theorem compass_eval_315 : degreesToCompass "315" = CompassResult.dir "NW" := by
  rw [degreesToCompass_eval "315" 315 14 parseFloatQ_315
    (by unfold jsRound; rw [Int.floor_eq_iff]; norm_num)]
  decide

theorem compass_eval_neg5 : degreesToCompass "-5" = CompassResult.dir "N" := by
  rw [degreesToCompass_eval "-5" (-5) 0 parseFloatQ_neg5
    (by unfold jsRound; rw [Int.floor_eq_iff]; norm_num)]
  decide

theorem compass_eval_neg30 : degreesToCompass "-30" = CompassResult.undefined := by
  rw [degreesToCompass_eval "-30" (-30) (-1) parseFloatQ_neg30
    (by unfold jsRound; rw [Int.floor_eq_iff]; norm_num)]
  decide

/-- C8 (counterexample): the spec's scenario `degrees=348 → N` fails on the
code. `Math.round(348 / 22.5) = 15`, so the code returns `NNW`, the entry
at index 15, not `N`. -/
theorem C8_counterexample :
    degreesToCompass "348" = CompassResult.dir "NNW" ∧
    degreesToCompass "348" ≠ CompassResult.dir "N" := by
  refine ⟨compass_eval_348, ?_⟩
  rw [compass_eval_348]
  decide

/-- C8 (amended): `degreesToCompass` passes non-numeric bearings through
unchanged; for bearings parsing to a non-negative degree it returns the
entry at index `round(deg / 22.5) mod 16` of the compass table; and
`337.5 → NNW`, `0 → N`, `22 → NNE`, while `348` yields `NNW` (not `N` as
the spec's scenario claims). -/
theorem C8_compass :
    (∀ s : String, parseFloatQ s = none → degreesToCompass s = .passthrough s) ∧
    (∀ s : String, ∀ q : ℚ, parseFloatQ s = some q → 0 ≤ q →
        degreesToCompass s =
          .dir (COMPASS.getD ((jsRound (q / (45 / 2 : ℚ)) % 16).toNat) "")) ∧
    degreesToCompass "337.5" = .dir "NNW" ∧
    degreesToCompass "0" = .dir "N" ∧
    degreesToCompass "22" = .dir "NNE" ∧
    degreesToCompass "348" = .dir "NNW" := by
  refine ⟨?_, ?_, compass_eval_337_5, compass_eval_0, compass_eval_22, compass_eval_348⟩
  · intro s hp
    simp [degreesToCompass, hp]
  · intro s q hp hq
    exact degreesToCompass_nonneg s q hp hq

/-- C8 (witness): the pass-through case at the concrete non-numeric bearing
`"calm"`. -/
theorem C8_compass_witness :
    degreesToCompass "calm" = CompassResult.passthrough "calm" :=
  C8_compass.1 "calm" (by decide)

/-- The imperative `parts.push` sequence of `formatWeatherMessage` produces
exactly the spec's ordered field list, and the result is `null` precisely
when that list is empty. -/
theorem formatWeatherMessage_eq_spec (readings : Readings) :
    formatWeatherMessage readings =
      if specWeatherFields readings = [] then none
      else some ("WX: " ++ String.intercalate " " (specWeatherFields readings)) := by
  obtain ⟨t, hu, ws, wg, wb, pr, u, rr, rd, sr, dp⟩ := readings
  simp only [formatWeatherMessage, specWeatherFields, optPart_eq, optStr_eq,
    List.nil_append, List.append_assoc, String.append_assoc]
  cases ws <;>
    simp [List.isEmpty_iff, List.append_assoc, String.append_assoc]

/-- C9 (counterexample): for the empty readings map `formatWeatherMessage`
returns `null`, not a line beginning `WX: `, so the claim fails as a
statement about every map. -/
theorem C9_counterexample : formatWeatherMessage {} = none := rfl

/-- C9 (amended): whenever at least one field is emitted,
`formatWeatherMessage` returns the single line `WX: ` followed by exactly
the fields of the present readings in the spec's fixed order (wind only
when a speed is present); with no emitted field it returns `null`; and on
the scenario readings it returns exactly
`WX: 72.3°F 45% NW12G18mph 30.12inHg UV4 0.02in/h 0.45in`. -/
theorem C9_weather_message :
    (∀ readings : Readings,
        formatWeatherMessage readings =
          if specWeatherFields readings = [] then none
          else some ("WX: " ++ String.intercalate " " (specWeatherFields readings))) ∧
    formatWeatherMessage scenarioReadings =
      some "WX: 72.3°F 45% NW12G18mph 30.12inHg UV4 0.02in/h 0.45in" := by
  refine ⟨formatWeatherMessage_eq_spec, ?_⟩
  rw [formatWeatherMessage_eq_spec scenarioReadings]
  simp only [specWeatherFields, scenarioReadings, Option.map_some', Option.getD_some,
    compass_eval_315, CompassResult.asJsString]
  decide

/-- C10 (counterexample): the bearing `"-5"` is numeric and negative, yet
its lookup is in bounds: `Math.round(-5 / 22.5) = 0`, so the code returns
`N`. The lookup is therefore not in bounds *only* for non-negative
bearings. -/
theorem C10_counterexample : degreesToCompass "-5" = CompassResult.dir "N" :=
  compass_eval_neg5

/-- C10 (amended): for the numeric bearing `"-30"` the code computes the
negative index `Math.round(-30 / 22.5) % 16 = -1` and the array access
returns `undefined` — neither a compass direction nor the input string —
while every bearing parsing to a non-negative degree produces an in-bounds
lookup (some negative bearings, such as `"-5"`, do too). -/
theorem C10_negative_bearing :
    degreesToCompass "-30" = CompassResult.undefined ∧
    (∀ s : String, ∀ q : ℚ, parseFloatQ s = some q → 0 ≤ q →
        degreesToCompass s ≠ CompassResult.undefined ∧
        ∀ t : String, degreesToCompass s ≠ CompassResult.passthrough t) := by
  constructor
  · exact compass_eval_neg30
  · intro s q hp hq
    rw [degreesToCompass_nonneg s q hp hq]
    constructor
    · intro h
      cases h
    · intro t h
      cases h

/-- C10 (witness): the in-bounds part applied at the bearing `"30"`. -/
theorem C10_negative_bearing_witness :
    degreesToCompass "30" ≠ CompassResult.undefined :=
  (C10_negative_bearing.2 "30" 30 parseFloatQ_30 (by norm_num)).1

/-- A connected client handle: a WebSocket client or a TCP socket,
identified for unicast routing. -/
inductive Client where
  | ws (id : Nat)
  | tcp (id : Nat)
deriving DecidableEq, Repr

/-- A queued command: the raw bytes to write and the originating client
(`null` for internally generated commands). -/
structure Command where
  data : List Nat
  source : Option Client
deriving DecidableEq, Repr

/-- One entry of the push-replay buffer: raw frame plus `Date.now()`. -/
structure PushEntry where
  frame : List Nat
  timestamp : Nat
deriving DecidableEq, Repr

/-- The module-level mutable state of `index.js` that the queue,
dispatcher and reset logic touch. A live `setTimeout` deadline for the
in-flight command is modelled by `timerSet`; `timerGen` increments every
time a timer is (re)armed, so a timer reset is visible as a generation
bump. `pendingResolve` holds the expected response code of the armed
startup hook. -/
structure BridgeState where
  serialOpen : Bool
  startupComplete : Bool
  parserBuffer : List Nat
  currentCommand : Option Command
  timerSet : Bool
  timerGen : Nat
  commandQueue : List Command
  pendingResolve : Option Nat
  pushBuffer : List PushEntry
  pushSubsCount : Nat
deriving DecidableEq, Repr

/-- Externally visible actions of the bridge: serial writes, scheduling a
queue drain on the next tick (`setImmediate(drainQueue)`), client sends
and broadcasts, resolving the startup hook, Web Push delivery, and
scheduling a buffer replay after the given delay. -/
inductive Effect where
  | serialWrite (bytes : List Nat)
  | scheduleDrain
  | sendTo (c : Client) (raw : List Nat)
  | broadcast (raw : List Nat)
  | resolveHook (payload : List Nat)
  | webPush (payload : List Nat)
  | scheduleReplay (delayMs : Nat)
deriving DecidableEq, Repr

namespace ResponseCodes

def ContactsStart : Nat := 2

def Contact : Nat := 3

def ContactMsgRecv : Nat := 7

def ChannelMsgRecv : Nat := 8

end ResponseCodes

namespace PushCodes

def MsgWaiting : Nat := 0x83

def RawData : Nat := 0x84

end PushCodes

/-- Response codes that are part of a multi-frame streaming sequence; any
code not in this set is terminal. -/
def STREAMING_RESPONSE_CODES : List Nat :=
  [ResponseCodes.ContactsStart, ResponseCodes.Contact,
   ResponseCodes.ContactMsgRecv, ResponseCodes.ChannelMsgRecv]

/-- Push codes forwarded to Web Push subscribers. -/
def NOTIFY_PUSH_CODES : List Nat := [PushCodes.MsgWaiting, PushCodes.RawData]

/-- `drainQueue()`: no-op unless startup is complete, nothing is in
flight, a command is queued, and the serial port is open; then the head
command moves to `currentCommand`, its deadline timer is armed and its
bytes are written to serial. -/
def drainQueue (s : BridgeState) : BridgeState × List Effect :=
  if s.startupComplete = false then (s, [])
  else if s.currentCommand.isSome then (s, [])
  else match s.commandQueue with
  | [] => (s, [])
  | c :: restQueue =>
    if s.serialOpen = false then (s, [])
    else
      ({ s with
          currentCommand := some c
          commandQueue := restQueue
          timerSet := true
          timerGen := s.timerGen + 1 },
        [Effect.serialWrite c.data])

/-- `enqueueCommand(data, source)`: append to the queue, then `drainQueue()`. -/
def enqueueCommand (s : BridgeState) (data : List Nat) (source : Option Client) :
    BridgeState × List Effect :=
  drainQueue { s with commandQueue := s.commandQueue ++ [⟨data, source⟩] }

/-- `resolveCurrentCommand()`: clear the in-flight command and its timer
and schedule `drainQueue` on the next tick; no-op when nothing is in
flight. -/
def resolveCurrentCommand (s : BridgeState) : BridgeState × List Effect :=
  match s.currentCommand with
  | none => (s, [])
  | some _ => ({ s with currentCommand := none, timerSet := false }, [Effect.scheduleDrain])

/-- `resetCommandTimeout()`: re-arm only the deadline timer of the
in-flight command; no-op when nothing is in flight. -/
def resetCommandTimeout (s : BridgeState) : BridgeState :=
  match s.currentCommand with
  | none => s
  | some _ => { s with timerSet := true, timerGen := s.timerGen + 1 }

/-- `resetState()` (invoked from the serial `close` handler): null the
serial handle, clear `startupComplete`, empty the codec accumulator,
cancel the in-flight command and its timer, abandon the startup hook,
and drop all queued commands. The push buffer is left untouched. -/
def resetState (s : BridgeState) : BridgeState :=
  { s with
      serialOpen := false
      startupComplete := false
      parserBuffer := []
      currentCommand := none
      timerSet := false
      pendingResolve := none
      commandQueue := [] }

/-- The `while (pushBuffer.length > PUSH_BUFFER_SIZE) pushBuffer.shift()`
loop of `bufferPushNotification`. -/
def trimToCap (cap : Nat) : List PushEntry → List PushEntry
  | [] => []
  | e :: rest => if cap < (e :: rest).length then trimToCap cap rest else e :: rest

/-- `bufferPushNotification(rawFrame)`: append an entry stamped with
`Date.now()`, then evict from the front while over capacity. -/
def bufferPushNotification (cap : Nat) (buf : List PushEntry) (rawFrame : List Nat)
    (now : Nat) : List PushEntry :=
  trimToCap cap (buf ++ [⟨rawFrame, now⟩])

/-- The raw wire bytes rebuilt by `handleIncomingFrame` for forwarding:
`FRAME_INCOMING`, 16-bit little-endian length, payload. -/
def rawFrameOf (payload : List Nat) : List Nat :=
  FRAME_INCOMING :: (payload.length &&& 0xff) :: ((payload.length >>> 8) &&& 0xff) :: payload

/-- `FrameParser.isPushNotification`: nonempty payload with first byte
at least `0x80`. -/
def isPushNotification (payload : List Nat) : Bool :=
  match payload with
  | [] => false
  | b :: _ => 0x80 ≤ b

/-- `handleIncomingFrame(frame)`: ignore non-incoming and empty frames;
give an armed startup hook with matching code the payload and stop; buffer
and broadcast push frames (plus Web Push for notify-worthy codes when
subscribers exist); unicast responses to the in-flight command's source
(broadcast when there is none), then extend the timeout on a streaming
code or resolve the command on a terminal one. -/
def handleIncomingFrame (cap now : Nat) (s : BridgeState) (frame : Frame) :
    BridgeState × List Effect :=
  if frame.type ≠ FRAME_INCOMING then (s, [])
  else match frame.payload with
  | [] => (s, [])
  | code :: restPayload =>
    let payload := code :: restPayload
    let hookMatch : Bool :=
      match s.pendingResolve with
      | some expected => code == expected
      | none => false
    if hookMatch then
      ({ s with pendingResolve := none }, [Effect.resolveHook payload])
    else
      let raw := rawFrameOf payload
      if isPushNotification payload then
        ({ s with pushBuffer := bufferPushNotification cap s.pushBuffer raw now },
          Effect.broadcast raw ::
            (if code ∈ NOTIFY_PUSH_CODES ∧ 0 < s.pushSubsCount
              then [Effect.webPush payload] else []))
      else
        let routeEffects :=
          match s.currentCommand with
          | some c =>
            match c.source with
            | some src => [Effect.sendTo src raw]
            | none => [Effect.broadcast raw]
          | none => [Effect.broadcast raw]
        if code ∈ STREAMING_RESPONSE_CODES then
          (resetCommandTimeout s, routeEffects)
        else
          ((resolveCurrentCommand s).1, routeEffects ++ (resolveCurrentCommand s).2)

/-- Per-connection WebSocket client state: the `_replayDone` flag and
whether `readyState === 1`. -/
structure WsClient where
  replayDone : Bool
  readyStateOpen : Bool
deriving DecidableEq, Repr

/-- The `ws.on('message')` handler: enqueue the message as a command with
the client as source; on the first message that sees a nonempty push
buffer, mark the client replayed and schedule a replay 3000 ms later. -/
def onWsMessage (s : BridgeState) (client : WsClient) (clientId : Nat) (data : List Nat) :
    BridgeState × WsClient × List Effect :=
  let r := enqueueCommand s data (some (Client.ws clientId))
  if client.replayDone = false ∧ r.1.pushBuffer ≠ [] then
    (r.1, { client with replayDone := true }, r.2 ++ [Effect.scheduleReplay 3000])
  else
    (r.1, client, r.2)

/-- The body of the replay `setTimeout` callback: if the socket is still
open, send every buffered frame in insertion order; otherwise nothing. -/
def replayTimerFire (pushBuffer : List PushEntry) (client : WsClient) (clientId : Nat) :
    List Effect :=
  if client.readyStateOpen then
    pushBuffer.map (fun e => Effect.sendTo (Client.ws clientId) e.frame)
  else []

/-- The `socket.on('data')` handler of the TCP server: feed the bytes to
the per-socket parser and enqueue each completed frame, rebuilt with
`buildFrame`, with the socket as source. No replay is ever scheduled. -/
def onTcpData (s : BridgeState) (tcpBuffer : List Nat) (sockId : Nat) (data : List Nat) :
    BridgeState × List Nat × List Effect :=
  let fed := feed tcpBuffer data
  let r := fed.1.foldl
    (fun (p : BridgeState × List Effect) fr =>
      let e := enqueueCommand p.1 (buildFrame fr.type fr.payload) (some (Client.tcp sockId))
      (e.1, p.2 ++ e.2))
    (s, [])
  (r.1, fed.2, r.2)

theorem trimToCap_eq_drop (cap : Nat) (l : List PushEntry) :
    trimToCap cap l = l.drop (l.length - cap) := by
  induction l with
  | nil => simp [trimToCap]
  | cons e rest ih =>
    simp only [trimToCap, List.length_cons]
    by_cases h : cap < rest.length + 1
    · rw [if_pos h, ih]
      have hs : rest.length + 1 - cap = (rest.length - cap) + 1 := by omega
      rw [hs]
      rfl
    · rw [if_neg h]
      have hz : rest.length + 1 - cap = 0 := by omega
      rw [hz, List.drop_zero]

/-- C6: after every completed `bufferPushNotification` the push-replay
buffer holds at most `cap` entries (`PUSH_BUFFER_SIZE`, default 1000),
and the result is exactly the suffix of `buf ++ [entry]` that fits —
i.e. overflow evicts the oldest entries first. -/
theorem C6_push_buffer_bound (cap now : Nat) (buf : List PushEntry) (rawFrame : List Nat) :
    (bufferPushNotification cap buf rawFrame now).length ≤ cap ∧
    bufferPushNotification cap buf rawFrame now =
      (buf ++ [PushEntry.mk rawFrame now]).drop ((buf.length + 1) - cap) := by
  constructor
  · rw [bufferPushNotification, trimToCap_eq_drop]
    simp only [List.length_drop, List.length_append, List.length_cons, List.length_nil]
    omega
  · rw [bufferPushNotification, trimToCap_eq_drop]
    simp [List.length_append]

/-- C5: `resetState` (run on every serial close) nulls the serial handle,
clears `startupComplete`, empties the codec accumulator, cancels the
in-flight command and its timer, abandons the startup hook, and empties
the waiter queue; consequently a `drainQueue` after the reset changes
nothing and writes nothing to serial, so no command observed before the
reset can be written afterwards without being re-submitted. -/
theorem C5_reset_state (s : BridgeState) :
    (resetState s).serialOpen = false ∧
    (resetState s).startupComplete = false ∧
    (resetState s).parserBuffer = [] ∧
    (resetState s).currentCommand = none ∧
    (resetState s).timerSet = false ∧
    (resetState s).pendingResolve = none ∧
    (resetState s).commandQueue = [] ∧
    drainQueue (resetState s) = (resetState s, []) :=
  ⟨rfl, rfl, rfl, rfl, rfl, rfl, rfl, rfl⟩

/-- C1: for a FromRadio frame whose first payload byte is a solicited
response code (`< 0x80`), delivered while a command is in flight and no
startup hook matches: a streaming code (`{2, 3, 7, 8}`) leaves the
in-flight command and the queue untouched and only re-arms the deadline
timer, emitting no drain; any other code performs exactly one terminal
transition — the in-flight command is cleared, its timer cancelled,
exactly one next-tick drain is scheduled, and that drain then moves the
head of the queue into flight and writes it to serial (when startup is
complete, the serial port is open and a command is waiting). -/
theorem C1_response_dispatch (cap now : Nat) (s : BridgeState) (code : Nat) (restPayload : List Nat)
    (c : Command)
    (hcur : s.currentCommand = some c)
    (hresp : code < 0x80)
    (hhook : s.pendingResolve = none) :
    (code ∈ STREAMING_RESPONSE_CODES →
      (handleIncomingFrame cap now s ⟨FRAME_INCOMING, code :: restPayload⟩).1 =
        { s with timerSet := true, timerGen := s.timerGen + 1 } ∧
      (handleIncomingFrame cap now s ⟨FRAME_INCOMING, code :: restPayload⟩).1.currentCommand =
        some c ∧
      Effect.scheduleDrain ∉
        (handleIncomingFrame cap now s ⟨FRAME_INCOMING, code :: restPayload⟩).2) ∧
    (code ∉ STREAMING_RESPONSE_CODES →
      (handleIncomingFrame cap now s ⟨FRAME_INCOMING, code :: restPayload⟩).1 =
        { s with currentCommand := none, timerSet := false } ∧
      (handleIncomingFrame cap now s ⟨FRAME_INCOMING, code :: restPayload⟩).2.count
        Effect.scheduleDrain = 1 ∧
      (∀ q : Command, ∀ qs : List Command,
        s.commandQueue = q :: qs → s.startupComplete = true → s.serialOpen = true →
          (drainQueue (handleIncomingFrame cap now s
              ⟨FRAME_INCOMING, code :: restPayload⟩).1).1.currentCommand = some q ∧
          (drainQueue (handleIncomingFrame cap now s
              ⟨FRAME_INCOMING, code :: restPayload⟩).1).2 = [Effect.serialWrite q.data])) := by
  have hpush : isPushNotification (code :: restPayload) = false := by
    simp only [isPushNotification, decide_eq_false_iff_not]
    omega
  constructor
  · intro hstream
    simp only [handleIncomingFrame, hhook, hpush, hcur, resetCommandTimeout,
      ne_eq, not_true_eq_false, if_neg, if_false, Bool.false_eq_true, if_pos hstream]
    refine ⟨by simp, by simp, ?_⟩
    cases hsrc : c.source <;> simp
  · intro hterm
    simp only [handleIncomingFrame, hhook, hpush, hcur, resolveCurrentCommand,
      ne_eq, not_true_eq_false, if_neg, if_false, Bool.false_eq_true, if_neg hterm]
    refine ⟨by simp, ?_, ?_⟩
    · cases hsrc : c.source <;> simp [List.count_append, List.count_cons]
    · intro q qs hq hstart hopen
      cases hsrc : c.source <;>
        simp [drainQueue, hq, hstart, hopen]

/-- A concrete in-flight command for witnesses. -/
def exampleCommand : Command := ⟨[1], some (Client.ws 0)⟩

/-- A concrete bridge state with `exampleCommand` in flight. -/
def exampleState : BridgeState where
  serialOpen := true
  startupComplete := true
  parserBuffer := []
  currentCommand := some exampleCommand
  timerSet := true
  timerGen := 0
  commandQueue := []
  pendingResolve := none
  pushBuffer := []
  pushSubsCount := 0

/-- C1 (witness): a `ContactsStart(2)` frame delivered with
`exampleCommand` in flight leaves it in flight. -/
theorem C1_response_dispatch_witness :
    (handleIncomingFrame 1000 0 exampleState ⟨FRAME_INCOMING, [2]⟩).1.currentCommand =
      some exampleCommand :=
  ((C1_response_dispatch 1000 0 exampleState 2 [] exampleCommand rfl (by decide) rfl).1
    (by decide)).2.1

theorem enqueueCommand_pushBuffer (s : BridgeState) (data : List Nat) (src : Option Client) :
    (enqueueCommand s data src).1.pushBuffer = s.pushBuffer := by
  simp only [enqueueCommand, drainQueue]
  split
  · rfl
  · split
    · rfl
    · split
      · rfl
      · split
        · rfl
        · rfl

theorem enqueueCommand_effects (s : BridgeState) (data : List Nat) (src : Option Client) :
    ∀ e ∈ (enqueueCommand s data src).2, ∃ b, e = Effect.serialWrite b := by
  intro e he
  simp only [enqueueCommand, drainQueue] at he
  split at he
  · simp at he
  · split at he
    · simp at he
    · split at he
      · simp at he
      · split at he
        · simp at he
        · simp at he
          exact ⟨_, he⟩

theorem tcp_foldl_effects (frames : List Frame) (sockId : Nat) :
    ∀ (s : BridgeState) (acc : List Effect),
      (∀ e ∈ acc, ∃ b, e = Effect.serialWrite b) →
      ∀ e ∈ (frames.foldl
          (fun (p : BridgeState × List Effect) fr =>
            ((enqueueCommand p.1 (buildFrame fr.type fr.payload) (some (Client.tcp sockId))).1,
              p.2 ++ (enqueueCommand p.1 (buildFrame fr.type fr.payload)
                (some (Client.tcp sockId))).2))
          (s, acc)).2,
        ∃ b, e = Effect.serialWrite b := by
  induction frames with
  | nil =>
    intro s acc hacc e he
    exact hacc e he
  | cons fr frs ih =>
    intro s acc hacc e he
    simp only [List.foldl_cons] at he
    refine ih _ _ ?_ e he
    intro x hx
    rcases List.mem_append.mp hx with hx2 | hx2
    · exact hacc x hx2
    · exact enqueueCommand_effects _ _ _ x hx2

/-- A fresh WebSocket client: not yet replayed, socket open. -/
def freshWsClient : WsClient := ⟨false, true⟩

/-- A concrete ready bridge state with nothing queued and an empty push
buffer. -/
def c7State : BridgeState where
  serialOpen := true
  startupComplete := true
  parserBuffer := []
  currentCommand := none
  timerSet := false
  timerGen := 0
  commandQueue := []
  pendingResolve := none
  pushBuffer := []
  pushSubsCount := 0

/-- `c7State` with one buffered push frame. -/
def c7BufState : BridgeState :=
  { c7State with pushBuffer := [PushEntry.mk [0x3E, 1, 0, 0x83] 0] }

/-- C7 (counterexample): when the push buffer is empty at the client's
first inbound message, no replay is scheduled by that message and the
client is not marked replayed; after a push is buffered, the client's
second message is what schedules the replay — so replay is not tied to
the first inbound message as claimed. -/
theorem C7_counterexample :
    Effect.scheduleReplay 3000 ∉ (onWsMessage c7State freshWsClient 0 [1]).2.2 ∧
    (onWsMessage c7State freshWsClient 0 [1]).2.1.replayDone = false ∧
    Effect.scheduleReplay 3000 ∈
      (onWsMessage
        (handleIncomingFrame 1000 0 (onWsMessage c7State freshWsClient 0 [1]).1
          ⟨FRAME_INCOMING, [0x83]⟩).1
        (onWsMessage c7State freshWsClient 0 [1]).2.1 0 [2]).2.2 := by
  decide

/-- C7 (amended): on a WebSocket client's first inbound message that sees
a nonempty push buffer, the bridge marks the client replayed and schedules
a replay 3000 ms later; once marked, no further replay is ever scheduled
for that client (at most once per connection); when the timer fires the
buffered frames are sent in insertion order if the socket is still open,
and nothing is sent otherwise; TCP data never schedules a replay. -/
theorem C7_ws_replay (s : BridgeState) (client : WsClient) (clientId : Nat) (data : List Nat) :
    (client.replayDone = false → s.pushBuffer ≠ [] →
      (onWsMessage s client clientId data).2.2 =
        (enqueueCommand s data (some (Client.ws clientId))).2 ++
          [Effect.scheduleReplay 3000] ∧
      (onWsMessage s client clientId data).2.1.replayDone = true) ∧
    (client.replayDone = true →
      (onWsMessage s client clientId data).2.1 = client ∧
      ∀ d : Nat, Effect.scheduleReplay d ∉ (onWsMessage s client clientId data).2.2) ∧
    (client.readyStateOpen = true →
      ∀ pushBuffer : List PushEntry,
        replayTimerFire pushBuffer client clientId =
          pushBuffer.map (fun e => Effect.sendTo (Client.ws clientId) e.frame)) ∧
    (client.readyStateOpen = false →
      ∀ pushBuffer : List PushEntry, replayTimerFire pushBuffer client clientId = []) ∧
    (∀ tcpBuffer : List Nat, ∀ sockId : Nat, ∀ tdata : List Nat, ∀ d : Nat,
      Effect.scheduleReplay d ∉ (onTcpData s tcpBuffer sockId tdata).2.2) := by
  refine ⟨?_, ?_, ?_, ?_, ?_⟩
  · intro h1 h2
    simp only [onWsMessage, enqueueCommand_pushBuffer]
    rw [if_pos ⟨h1, h2⟩]
    exact ⟨rfl, rfl⟩
  · intro h1
    simp only [onWsMessage, enqueueCommand_pushBuffer]
    rw [if_neg (by simp [h1])]
    refine ⟨rfl, ?_⟩
    intro d hmem
    obtain ⟨b, hb⟩ := enqueueCommand_effects s data (some (Client.ws clientId)) _ hmem
    simp at hb
  · intro hopen pushBuffer
    simp [replayTimerFire, hopen]
  · intro hclosed pushBuffer
    simp [replayTimerFire, hclosed]
  · intro tcpBuffer sockId tdata d hmem
    simp only [onTcpData] at hmem
    obtain ⟨b, hb⟩ := tcp_foldl_effects (feed tcpBuffer tdata).1 sockId s [] (by simp) _ hmem
    simp at hb

/-- C7 (witness): a first message with one buffered push frame marks the
client replayed. -/
theorem C7_ws_replay_witness :
    (onWsMessage c7BufState freshWsClient 0 [1]).2.1.replayDone = true :=
  ((C7_ws_replay c7BufState freshWsClient 0 [1]).1 rfl (by decide)).2

end MeshCore
